import Mathlib

/-!
Verification of the tma.js Mini Apps SDK against its specification.

The development shallowly embeds the relevant source functions:
* `WebApp` methods from the SDK (`openInvoice`, `openTelegramLink`,
  `openLink`, `sendData`, `setHeaderColor`, `setBackgroundColor`,
  `isVersionAtLeast`);
* the navigator initialization (`instantiate` / `initNavigator`);
* the Mini Apps event-emitter singleton (`rewired off`).

Side effects (bridge `postEvent` calls, `window.open`, `location.href`
assignment, state updates, change-event emissions) are represented as
explicit traces of `Action`s.  Fallible methods return the trace of
actions performed before the throw together with an optional error
message.  Collaborators whose code is not in the repository snapshot
(the bridge `request` correlator, `compareVersions`, `State`,
`createSingleton`, `BrowserNavigator` construction, `JSON.parse`) are
modelled from the specification, as noted on each definition.
-/

namespace TmaJs

/-- An observable side effect performed by a component method, in order. -/
inductive Action where
  /-- A bridge call: `postEvent(name, payload)`, with the payload rendered
  as an ordered list of key/value pairs. -/
  | postEv (name : String) (payload : List (String × String))
  /-- A legacy browser fallback: `window.open(url, '_blank')`. -/
  | windowOpen (url : String)
  /-- A legacy browser fallback: `window.location.href = url`. -/
  | locationAssign (url : String)
  /-- A local state update: `state.set(field, value)`. -/
  | stateSet (field : String) (value : String)
  /-- A change event emitted through the component event emitter. -/
  | emitChange (field : String) (value : String)
  deriving DecidableEq, Repr

/-- A hexadecimal digit, as accepted by the `#rrggbb` color pattern. -/
def isHexChar (c : Char) : Bool :=
  c.isDigit || ('a' ≤ c && c ≤ 'f') || ('A' ≤ c && c ≤ 'F')

/-- Modelled from the spec: `isRGB` from the missing `@tma.js/colors`
package — recognizes a `#rrggbb` color string. -/
def isRGB (s : String) : Bool :=
  match s.data with
  | '#' :: rest => rest.length = 6 && rest.all isHexChar
  | _ => false

/-- A character allowed in an invoice slug, from the source regex
character class `[A-Za-z0-9\-_=]`. -/
def isSlugChar (c : Char) : Bool :=
  c.isAlphanum || c = '-' || c = '_' || c = '='

/-- The source regex `^\/(\$|invoice\/)([A-Za-z0-9\-_=]+)$` applied to a
pathname: returns the captured slug when the pathname matches (the slug
group is one or more slug characters, anchored at the end). -/
def matchInvoicePath (p : String) : Option String :=
  match p.data with
  | '/' :: '$' :: rest =>
    if rest.length > 0 && rest.all isSlugChar then some (String.mk rest) else none
  | '/' :: 'i' :: 'n' :: 'v' :: 'o' :: 'i' :: 'c' :: 'e' :: '/' :: rest =>
    if rest.length > 0 && rest.all isSlugChar then some (String.mk rest) else none
  | _ => none

/-- An incoming bridge event relevant to `openInvoice`: its event name and
the `slug` and `status` fields of its payload. -/
structure InvoiceEvent where
  name : String
  slug : String
  status : String
  deriving DecidableEq, Repr

/-- Modelled from the spec: the request/response correlator `request` from
the missing `@tma.js/bridge` package, specialized to `openInvoice`'s call.
Per the spec, the correlator settles with the first incoming event whose
name is the expected response event and for which the capture predicate
returns true; all other events are ignored.  `evs` is the stream of
incoming bridge events after the request is issued; the source capture
predicate is `({ slug: eventSlug }) => slug === eventSlug`. -/
def openInvoiceSettle (slug : String) (evs : List InvoiceEvent) : Option InvoiceEvent :=
  evs.find? (fun e => e.name == "invoice_closed" && e.slug == slug)

/-- `WebApp.openInvoice`, embedded over the parsed URL (`hostname`,
`pathname` of `new URL(formatURL(url))`).  Returns the trace of actions
performed, and either an error message (synchronous throw) or the settled
invoice status (`none` when no matching response ever arrives). -/
def openInvoice (hostname pathname : String) (evs : List InvoiceEvent) :
    List Action × Except String (Option String) :=
  if hostname ≠ "t.me" then
    ([], .error ("Incorrect hostname: " ++ hostname))
  else
    match matchInvoicePath pathname with
    | none => ([], .error "Link pathname has incorrect format. Expected to receive \"/invoice/slug\" or \"/$slug\"")
    | some slug =>
      ([Action.postEv "web_app_open_invoice" [("slug", slug)]],
       .ok ((openInvoiceSettle slug evs).map InvoiceEvent.status))

/-- `WebApp.openTelegramLink`, embedded over the parsed URL (`hostname`,
`pathname`, `search` of `new URL(formatURL(url))`; `url` is the original
argument used by the legacy fallback).  `supported` is the result of
`supports('web_app_open_tg_link', this.version)`.  Returns the trace of
actions performed and an optional synchronous error message. -/
def openTelegramLink (supported : Bool) (hostname pathname search url : String) :
    List Action × Option String :=
  if hostname ≠ "t.me" then
    ([], some ("URL has not allowed hostname: " ++ hostname ++ ". Only \"t.me\" is allowed"))
  else if !supported then
    ([Action.locationAssign url], none)
  else
    ([Action.postEv "web_app_open_tg_link" [("path_full", pathname ++ search)]], none)

/-- `WebApp.openLink`, embedded over the formatted URL.  `supported` is the
result of `supports('web_app_open_link', this.version)`; `tryInstantView`
is `some b` when the caller passed the boolean `b` and `none` when the
argument was omitted (the source spreads `try_instant_view` into the
payload only when `typeof tryInstantView === 'boolean'`). -/
def openLink (supported : Bool) (formattedUrl : String) (tryInstantView : Option Bool) :
    List Action × Option String :=
  if !supported then
    ([Action.windowOpen formattedUrl], none)
  else
    ([Action.postEv "web_app_open_link"
       (("url", formattedUrl) ::
        (match tryInstantView with
         | some b => [("try_instant_view", toString b)]
         | none => []))], none)

/-- `WebApp.sendData`.  The byte size computed by `new Blob([data]).size`
is the UTF-8 byte length of the string. -/
def sendData (data : String) : List Action × Option String :=
  let size := data.utf8ByteSize
  if size = 0 ∨ size > 4096 then
    ([], some ("Passed data has incorrect size: " ++ toString size))
  else
    ([Action.postEv "web_app_data_send" [("data", data)]], none)

/-- The mutable state held by the `WebApp` component. -/
structure WebAppState where
  headerColor : String
  backgroundColor : String
  deriving DecidableEq, Repr

/-- `WebApp.setHeaderColor`: posts the bridge event, then calls
`state.set('headerColor', color)`.  `State.set` is modelled from the spec:
it applies the new value and then emits a change event carrying the field
name and new value. -/
def setHeaderColor (s : WebAppState) (color : String) : WebAppState × List Action :=
  ({ s with headerColor := color },
   [Action.postEv "web_app_set_header_color"
      (if isRGB color then [("color", color)] else [("color_key", color)]),
    Action.stateSet "headerColor" color,
    Action.emitChange "headerColor" color])

/-- `WebApp.setBackgroundColor`: posts the bridge event, then calls
`state.set('backgroundColor', color)` (modelled as for `setHeaderColor`). -/
def setBackgroundColor (s : WebAppState) (color : String) : WebAppState × List Action :=
  ({ s with backgroundColor := color },
   [Action.postEv "web_app_set_background_color" [("color", color)],
    Action.stateSet "backgroundColor" color,
    Action.emitChange "backgroundColor" color])

/-- Splits a character list on the `.` separator (the behavior of
`split('.')` on the version string). -/
def splitDots : List Char → List (List Char)
  | [] => [[]]
  | c :: cs =>
    let r := splitDots cs
    if c = '.' then [] :: r
    else
      match r with
      | p :: ps => (c :: p) :: ps
      | [] => [[c]]

/-- Parses one dotted component as a decimal number, yielding 0 when the
component is empty or not all digits. -/
def partToNat (cs : List Char) : Nat :=
  if cs ≠ [] ∧ cs.all Char.isDigit then
    cs.foldl (fun n c => n * 10 + (c.toNat - 48)) 0
  else 0

/-- Modelled from the spec: version parsing from the missing
`@tma.js/utils` package — a `Version` is "an ordered tuple of non-negative
integers parsed from a dotted string". -/
def parseVersion (v : String) : List Nat :=
  (splitDots v.data).map partToNat

/-- True when every component is zero (an exhausted version is equal to a
remainder of zeros). -/
def allZero (l : List Nat) : Bool := l.all (fun n => n = 0)

/-- Modelled from the spec: the ordering used by `compareVersions` —
"comparison is lexicographic over the tuple, missing trailing components
treated as zero". -/
def cmpParts : List Nat → List Nat → Ordering
  | [], ys => if allZero ys then .eq else .lt
  | x :: xs, [] => if allZero (x :: xs) then .eq else .gt
  | x :: xs, y :: ys =>
    if x < y then .lt else if y < x then .gt else cmpParts xs ys

/-- Modelled from the spec: `compareVersions` from the missing
`@tma.js/utils` package, returning a negative, zero or positive integer. -/
def compareVersions (a b : String) : Int :=
  match cmpParts (parseVersion a) (parseVersion b) with
  | .lt => -1
  | .eq => 0
  | .gt => 1

/-- `WebApp.isVersionAtLeast`: the source returns
`compareVersions(version, this.version) >= 0`, where `version` is the
passed argument and `this.version` the component's current version. -/
def isVersionAtLeast (currentVersion version : String) : Bool :=
  compareVersions version currentVersion ≥ 0

/-- Independent specification of "version `a` is less than or equal to
version `b`": lexicographic over the dotted integer parts, missing
trailing components treated as zero.  Used to characterize
`isVersionAtLeast` against an ordering defined without `compareVersions`. -/
def verLe : List Nat → List Nat → Bool
  | [], _ => true
  | x :: xs, [] => allZero (x :: xs)
  | x :: xs, y :: ys =>
    if x < y then true else if y < x then false else verLe xs ys

/-- Modelled from the spec: the `supports` function of the missing
`@tma.js/bridge` package — "look up the capability's minimum version;
compare the current host version against minVersion using the Version
Comparator; return true iff the minimum is satisfied".  `minVersionOf`
is the shared compatibility table, mapping a bridge event name to its
minimum host version. -/
def supportsEvent (minVersionOf : String → String) (event currentVersion : String) : Bool :=
  cmpParts (parseVersion currentVersion) (parseVersion (minVersionOf event)) ≠ .lt

/-- The state of the process-wide Mini Apps event-emitter singleton:
either not created, or created with a number of live listeners.
Modelled from the spec for the missing `createSingleton` helper: `get`
lazily creates the value, `reset` invokes the cleanup and clears it so
the next `get` recreates it. -/
inductive SingletonState where
  | absent
  | present (count : Nat)
  deriving DecidableEq, Repr

/-- Accessing the singleton (`miniAppsEventEmitter()`): lazily creates the
emitter, with no listeners, when it is absent. -/
def accessSingleton : SingletonState → SingletonState
  | .absent => .present 0
  | s => s

/-- The rewired `off` of the singleton emitter, acting on the live
listener count `c`.  `removes` tells whether the underlying
`emitter.off(event, listener)` call actually removed a registered
listener (the underlying `off` is a no-op on an unknown listener).  The
source reads `count` before the call and resets the singleton when
`count && !emitter.count`. -/
def offStep (c : Nat) (removes : Bool) : SingletonState :=
  let c' := if removes then c - 1 else c
  if c ≠ 0 ∧ c' = 0 then .absent else .present c'

/-- A persisted navigator snapshot: the `{index, history}` object stored
in session storage. -/
structure NavSnapshot where
  index : Nat
  history : List String
  deriving DecidableEq, Repr

/-- The navigator state relevant to restoration: its index and history,
plus whether it was derived from the browser location. -/
structure NavState where
  index : Nat
  history : List String
  fromLocation : Bool
  deriving DecidableEq, Repr

/-- Modelled from the spec: `createBrowserNavigatorFromLocation` (missing
from the snapshot) — "deriving a single-entry history from the current
location". -/
def navigatorFromLocation (location : String) : NavState :=
  { index := 0, history := [location], fromLocation := true }

/-- `instantiate` from `initNavigator.ts`: on a page reload with a
non-empty stored value that parses as an `{index, history}` snapshot,
builds the navigator from exactly that snapshot; otherwise falls back to
the location-derived navigator.  `parse` models `JSON.parse` with the
`{index, history}` destructuring (failing on malformed input);
`BrowserNavigator(history, index)` is modelled from the spec as
reinstating that history and index verbatim. -/
def instantiate (pageReload : Bool) (stored : Option String)
    (parse : String → Option NavSnapshot) (location : String) : NavState :=
  match pageReload, stored with
  | true, some raw =>
    if raw ≠ "" then
      match parse raw with
      | some snap => { index := snap.index, history := snap.history, fromLocation := false }
      | none => navigatorFromLocation location
    else navigatorFromLocation location
  | _, _ => navigatorFromLocation location

/-- The navigator/storage system wired by `initNavigator`: the navigator's
current snapshot and the session-storage slot under the supplied key
(`none` when nothing has been written). -/
structure NavSys where
  nav : NavSnapshot
  stored : Option NavSnapshot
  deriving DecidableEq, Repr

/-- `initNavigator` after `instantiate`: subscribes `saveState` to the
navigator's change event and calls `saveState()` once, writing the
initial `{index, history}` snapshot to session storage. -/
def initNavigatorSys (n0 : NavSnapshot) : NavSys :=
  { nav := n0, stored := some n0 }

/-- One navigator change: the navigator moves to snapshot `n'` and emits
its change event, upon which the subscribed `saveState` re-serializes the
current `{index, history}` to session storage. -/
def changeStep (_s : NavSys) (n' : NavSnapshot) : NavSys :=
  { nav := n', stored := some n' }

/-- A sequence of navigator changes after initialization. -/
def runChanges (s : NavSys) (ns : List NavSnapshot) : NavSys :=
  ns.foldl changeStep s

/-! ## Theorems -/

/-- C3: for every string whose UTF-8 byte size is 0 or above 4096,
`sendData` throws synchronously before any bridge call; for byte sizes
between 1 and 4096 inclusive it issues exactly one `web_app_data_send`
bridge call carrying the data and does not throw. -/
theorem sendData_size_gate (data : String) :
    ((data.utf8ByteSize = 0 ∨ data.utf8ByteSize > 4096) →
      (sendData data).1 = [] ∧ ((sendData data).2).isSome = true) ∧
    ((1 ≤ data.utf8ByteSize ∧ data.utf8ByteSize ≤ 4096) →
      (sendData data).1 = [Action.postEv "web_app_data_send" [("data", data)]] ∧
      (sendData data).2 = none) := by
  by_cases h : data.utf8ByteSize = 0 ∨ data.utf8ByteSize > 4096
  · exact ⟨fun _ => by simp [sendData, h], fun hc => by omega⟩
  · exact ⟨fun hh => absurd hh h, fun _ => by simp [sendData, h]⟩

/-- Witness for `sendData_size_gate`: the empty string is rejected with no
bridge call, and a 2-byte string is sent without an error. -/
theorem sendData_size_gate_witness :
    (sendData "").1 = [] ∧ (sendData "hi").2 = none :=
  ⟨((sendData_size_gate "").1 (by decide)).1,
   ((sendData_size_gate "hi").2 (by decide)).2⟩

/-- C6: `setHeaderColor` and `setBackgroundColor` perform their three
effects in the fixed order bridge `postEvent` first, local state update
second, change event last. -/
theorem setColor_effect_order (s : WebAppState) (color : String) :
    (∃ payload, (setHeaderColor s color).2 =
      [Action.postEv "web_app_set_header_color" payload,
       Action.stateSet "headerColor" color,
       Action.emitChange "headerColor" color]) ∧
    (setBackgroundColor s color).2 =
      [Action.postEv "web_app_set_background_color" [("color", color)],
       Action.stateSet "backgroundColor" color,
       Action.emitChange "backgroundColor" color] :=
  ⟨⟨_, rfl⟩, rfl⟩

/-- C2 counterexample: with a compatibility table requiring version 6.1
for `web_app_set_header_color`, the capability is unsupported at current
version 6.0, yet `setHeaderColor` still issues the bridge event (as its
very first action): no capability check precedes the bridge call. -/
theorem setHeaderColor_unchecked_cex :
    supportsEvent (fun _ => "6.1") "web_app_set_header_color" "6.0" = false ∧
    (setHeaderColor ⟨"#000000", "#ffffff"⟩ "#aabbcc").2.head? =
      some (Action.postEv "web_app_set_header_color" [("color", "#aabbcc")]) := by
  exact ⟨by decide, by decide⟩

/-- C2 amended: `setHeaderColor` and `setBackgroundColor` perform no
capability check at all — they issue their bridge event unconditionally,
for every state and color, regardless of the current version (the
entries in the component's supports table only back the separate
`supports()` query). -/
theorem setColor_posts_unconditionally (s : WebAppState) (color : String) :
    (∃ payload, (setHeaderColor s color).2.head? =
        some (Action.postEv "web_app_set_header_color" payload)) ∧
    (setBackgroundColor s color).2.head? =
      some (Action.postEv "web_app_set_background_color" [("color", color)]) :=
  ⟨⟨_, rfl⟩, rfl⟩

/-- C7: `openLink` never reports a capability error; when the
`web_app_open_link` event is unsupported it opens the URL via
`window.open` and issues no bridge call, and when supported it posts
`web_app_open_link` with the formatted URL, the `try_instant_view` flag
being present exactly when a boolean was passed. -/
theorem openLink_never_capability_error (supported : Bool) (url : String) (tiv : Option Bool) :
    (openLink supported url tiv).2 = none ∧
    (supported = false →
      (openLink supported url tiv).1 = [Action.windowOpen url] ∧
      ∀ n p, Action.postEv n p ∉ (openLink supported url tiv).1) ∧
    (supported = true → ∃ rest,
      (openLink supported url tiv).1 =
        [Action.postEv "web_app_open_link" (("url", url) :: rest)] ∧
      (tiv = none → rest = []) ∧
      ∀ b, tiv = some b → rest = [("try_instant_view", toString b)]) := by
  cases supported with
  | false => refine ⟨rfl, fun _ => ⟨rfl, ?_⟩, fun h => by simp at h⟩
             intro n p hmem
             simp [openLink] at hmem
  | true =>
    refine ⟨rfl, fun h => by simp at h, fun _ => ?_⟩
    cases tiv with
    | none => exact ⟨[], rfl, fun _ => rfl, fun b hb => by simp at hb⟩
    | some b =>
      exact ⟨[("try_instant_view", toString b)], rfl,
        fun h => by simp at h, fun b' hb => by simp_all⟩

/-- Witness for `openLink_never_capability_error`: concrete unsupported
and supported calls. -/
theorem openLink_never_capability_error_witness :
    (openLink false "https://a.b" none).1 = [Action.windowOpen "https://a.b"] ∧
    ∃ rest, (openLink true "https://a.b" (some true)).1 =
      [Action.postEv "web_app_open_link" (("url", "https://a.b") :: rest)] :=
  ⟨((openLink_never_capability_error false "https://a.b" none).2.1 rfl).1,
   ⟨_, (((openLink_never_capability_error true "https://a.b" (some true)).2.2 rfl).choose_spec).1⟩⟩

/-- C8: when the formatted hostname is not `t.me`, both
`openTelegramLink` and `openInvoice` fail synchronously with no bridge
call issued; `openInvoice` also fails synchronously, with no bridge
call, when the pathname does not match `/invoice/<slug>` or `/$<slug>`. -/
theorem url_validation_before_bridge (supported : Bool)
    (hostname pathname search url : String) (evs : List InvoiceEvent) :
    (hostname ≠ "t.me" →
      (openTelegramLink supported hostname pathname search url).1 = [] ∧
      ((openTelegramLink supported hostname pathname search url).2).isSome = true ∧
      (openInvoice hostname pathname evs).1 = [] ∧
      ∃ e, (openInvoice hostname pathname evs).2 = .error e) ∧
    (matchInvoicePath pathname = none →
      (openInvoice "t.me" pathname evs).1 = [] ∧
      ∃ e, (openInvoice "t.me" pathname evs).2 = .error e) := by
  constructor
  · intro h
    refine ⟨?_, ?_, ?_, ?_⟩ <;> simp [openTelegramLink, openInvoice, h]
  · intro h
    constructor <;> simp [openInvoice, h]

/-- Witness for `url_validation_before_bridge`: a non-`t.me` host and an
invalid invoice pathname both fail with no bridge interaction. -/
theorem url_validation_before_bridge_witness :
    (openTelegramLink true "example.com" "/a" "" "https://example.com/a").1 = [] ∧
    (openInvoice "t.me" "/foo" []).1 = [] :=
  ⟨((url_validation_before_bridge true "example.com" "/a" "" "https://example.com/a" []).1
      (by decide)).1,
   ((url_validation_before_bridge true "t.me" "/foo" "" "" []).2 (by decide)).1⟩

/-- C1: for every accepted invoice URL (`t.me` host, matching pathname),
`openInvoice` issues one `web_app_open_invoice` request carrying the
extracted slug, settles with the first `invoice_closed` event whose slug
equals that request's slug and returns its status, ignores events with a
different slug, and two concurrent calls for distinct slugs never settle
on the same event. -/
theorem openInvoice_correlation (pathname slug : String) (evs : List InvoiceEvent)
    (h : matchInvoicePath pathname = some slug) :
    (openInvoice "t.me" pathname evs).1 =
      [Action.postEv "web_app_open_invoice" [("slug", slug)]] ∧
    (openInvoice "t.me" pathname evs).2 =
      .ok ((openInvoiceSettle slug evs).map InvoiceEvent.status) ∧
    (∀ e, openInvoiceSettle slug evs = some e →
      e ∈ evs ∧ e.name = "invoice_closed" ∧ e.slug = slug) ∧
    (∀ e, e ∈ evs → e.slug ≠ slug → openInvoiceSettle slug evs ≠ some e) ∧
    (∀ slug2 e e2, slug2 ≠ slug → openInvoiceSettle slug evs = some e →
      openInvoiceSettle slug2 evs = some e2 → e ≠ e2) := by
  have hsettle : ∀ s e, openInvoiceSettle s evs = some e →
      e ∈ evs ∧ e.name = "invoice_closed" ∧ e.slug = s := by
    intro s e he
    have hp := List.find?_some he
    have hm := List.mem_of_find?_eq_some he
    simp only [Bool.and_eq_true, beq_iff_eq] at hp
    exact ⟨hm, hp.1, hp.2⟩
  refine ⟨by simp [openInvoice, h], by simp [openInvoice, h],
    fun e he => hsettle slug e he, ?_, ?_⟩
  · intro e _ hne hsome
    exact hne (hsettle slug e hsome).2.2
  · intro slug2 e e2 hne h1 h2 heq
    subst heq
    exact hne (((hsettle slug2 e h2).2.2).symm.trans (hsettle slug e h1).2.2)

/-- Witness for `openInvoice_correlation`: a concrete accepted invoice URL
issues the request for its slug and settles with the matching event's
status. -/
theorem openInvoice_correlation_witness :
    (openInvoice "t.me" "/invoice/abc" [⟨"invoice_closed", "abc", "paid"⟩]).1 =
      [Action.postEv "web_app_open_invoice" [("slug", "abc")]] ∧
    (openInvoice "t.me" "/invoice/abc" [⟨"invoice_closed", "abc", "paid"⟩]).2 =
      .ok ((openInvoiceSettle "abc" [⟨"invoice_closed", "abc", "paid"⟩]).map
        InvoiceEvent.status) :=
  ⟨(openInvoice_correlation "/invoice/abc" "abc"
      [⟨"invoice_closed", "abc", "paid"⟩] (by decide)).1,
   (openInvoice_correlation "/invoice/abc" "abc"
      [⟨"invoice_closed", "abc", "paid"⟩] (by decide)).2.1⟩

/-- The boolean ordering `verLe` agrees with the comparator: `a ≤ b`
exactly when comparing `b` against `a` does not yield "less". -/
theorem verLe_iff_cmp : ∀ (a b : List Nat), verLe a b = true ↔ cmpParts b a ≠ .lt
  | [], [] => by simp [verLe, cmpParts, allZero]
  | [], y :: ys => by
    by_cases h : allZero (y :: ys) = true <;> simp [verLe, cmpParts, h]
  | x :: xs, [] => by
    by_cases h : allZero (x :: xs) = true <;> simp [verLe, cmpParts, h]
  | x :: xs, y :: ys => by
    rcases Nat.lt_trichotomy x y with h | h | h
    · simp [verLe, cmpParts, h, Nat.lt_asymm h]
    · subst h
      simpa [verLe, cmpParts, Nat.lt_irrefl] using verLe_iff_cmp xs ys
    · simp [verLe, cmpParts, h, Nat.lt_asymm h]

/-- C10: `isVersionAtLeast v` returns true exactly when
`compareVersions v currentVersion ≥ 0`, i.e. when the passed version is
greater than or equal to the current version in the dotted-components
order — and not when the current version is at least the passed one, as
the concrete pair (current "6.0", passed "5.0") shows. -/
theorem isVersionAtLeast_direction (cur v : String) :
    (isVersionAtLeast cur v = true ↔ compareVersions v cur ≥ 0) ∧
    (isVersionAtLeast cur v = true ↔
      verLe (parseVersion cur) (parseVersion v) = true) ∧
    isVersionAtLeast "6.0" "5.0" = false ∧
    isVersionAtLeast "5.0" "6.0" = true := by
  have h1 : isVersionAtLeast cur v = true ↔ compareVersions v cur ≥ 0 := by
    simp [isVersionAtLeast]
  have h2 : compareVersions v cur ≥ 0 ↔
      cmpParts (parseVersion v) (parseVersion cur) ≠ .lt := by
    cases hc : cmpParts (parseVersion v) (parseVersion cur) <;>
      simp [compareVersions, hc]
  exact ⟨h1, h1.trans (h2.trans (verLe_iff_cmp (parseVersion cur) (parseVersion v)).symm),
    by decide, by decide⟩

/-- C4: on a page reload, a non-empty persisted value that parses as an
`{index, history}` snapshot is reinstated exactly; a value that fails to
parse, or a missing value, falls back to the location-derived navigator
instead of failing. -/
theorem initNavigator_restoration (raw location : String) (snap : NavSnapshot)
    (parse : String → Option NavSnapshot) :
    (raw ≠ "" → parse raw = some snap →
      instantiate true (some raw) parse location =
        { index := snap.index, history := snap.history, fromLocation := false }) ∧
    (parse raw = none →
      instantiate true (some raw) parse location = navigatorFromLocation location) ∧
    (∀ pr, instantiate pr none parse location = navigatorFromLocation location) := by
  refine ⟨fun hr hp => ?_, fun hp => ?_, fun pr => ?_⟩
  · simp [instantiate, hr, hp]
  · by_cases hr : raw = ""
    · simp [instantiate, hr]
    · simp [instantiate, hr, hp]
  · cases pr <;> rfl

/-- Witness for `initNavigator_restoration`: a parsable snapshot is
restored verbatim and an unparsable one falls back to the location. -/
theorem initNavigator_restoration_witness :
    instantiate true (some "good")
      (fun s => if s = "good" then some ⟨1, ["a", "b", "c"]⟩ else none) "loc" =
      { index := 1, history := ["a", "b", "c"], fromLocation := false } ∧
    instantiate true (some "bad")
      (fun s => if s = "good" then some ⟨1, ["a", "b", "c"]⟩ else none) "loc" =
      navigatorFromLocation "loc" :=
  ⟨(initNavigator_restoration "good" "loc" ⟨1, ["a", "b", "c"]⟩
      (fun s => if s = "good" then some ⟨1, ["a", "b", "c"]⟩ else none)).1
      (by decide) (by decide),
   (initNavigator_restoration "bad" "loc" ⟨1, ["a", "b", "c"]⟩
      (fun s => if s = "good" then some ⟨1, ["a", "b", "c"]⟩ else none)).2.1
      (by decide)⟩

/-- C9: `initNavigator` writes the initial snapshot once, and after every
sequence of change events the stored snapshot equals the navigator's
state as of its most recent change. -/
theorem initNavigator_persists_changes (n0 : NavSnapshot) (ns : List NavSnapshot) :
    (initNavigatorSys n0).stored = some n0 ∧
    (initNavigatorSys n0).nav = n0 ∧
    (runChanges (initNavigatorSys n0) ns).stored =
      some (runChanges (initNavigatorSys n0) ns).nav := by
  refine ⟨rfl, rfl, ?_⟩
  have h : ∀ (s : NavSys), s.stored = some s.nav →
      (runChanges s ns).stored = some (runChanges s ns).nav := by
    induction ns with
    | nil => intro s hs; simpa [runChanges] using hs
    | cons n ns ih =>
      intro s _
      simpa [runChanges, changeStep] using
        ih { nav := n, stored := some n } rfl
  exact h _ rfl

/-- C5: the singleton is reset exactly when `off` transitions the live
listener count from nonzero to zero (given that the underlying removal
only succeeds with at least one listener); the count staying nonzero, or
`off` with zero listeners, never resets it; the next access lazily
recreates it. -/
theorem singleton_reset_lifecycle (c : Nat) (removes : Bool)
    (h : removes = true → 1 ≤ c) :
    (offStep c removes = .absent ↔ (removes = true ∧ c = 1)) ∧
    (2 ≤ c → ∃ c', c' ≠ 0 ∧ offStep c removes = .present c') ∧
    (c = 0 → offStep c removes = .present 0) ∧
    accessSingleton .absent = .present 0 := by
  have hstep : offStep c removes =
      if c ≠ 0 ∧ (if removes then c - 1 else c) = 0 then .absent
      else .present (if removes then c - 1 else c) := rfl
  refine ⟨⟨fun ha => ?_, fun hac => ?_⟩, fun h2 => ?_, fun h0 => ?_, rfl⟩
  · by_cases hcond : c ≠ 0 ∧ (if removes then c - 1 else c) = 0
    · cases removes with
      | false =>
        exact absurd hcond (by simp only [if_neg Bool.false_ne_true]; omega)
      | true =>
        refine ⟨rfl, ?_⟩
        rcases hcond with ⟨h1, hc2⟩
        simp at hc2
        omega
    · rw [hstep, if_neg hcond] at ha
      exact absurd ha (by simp)
  · rcases hac with ⟨hr, hc⟩
    subst hr; subst hc
    decide
  · refine ⟨if removes then c - 1 else c, ?_, ?_⟩
    · cases removes <;> simp <;> omega
    · have hcond : ¬(c ≠ 0 ∧ (if removes then c - 1 else c) = 0) := by
        cases removes <;> simp <;> omega
      rw [hstep, if_neg hcond]
  · subst h0
    cases removes with
    | false => decide
    | true => exact absurd (h rfl) (by omega)

/-- Witness for `singleton_reset_lifecycle`: removing the only listener
resets the singleton; removing one of two does not; `off` at zero
listeners leaves the singleton in place. -/
theorem singleton_reset_lifecycle_witness :
    offStep 1 true = .absent ∧ offStep 0 false = .present 0 :=
  ⟨(singleton_reset_lifecycle 1 true (fun _ => le_refl 1)).1.mpr ⟨rfl, rfl⟩,
   (singleton_reset_lifecycle 0 false
      (fun hh => absurd hh (by decide))).2.2.1 rfl⟩

end TmaJs
